import Mathlib

/-!
Shallow embedding of the answer-evaluation, hint-generation and
fragment-selection logic of `src/components/QuestionCard.tsx`.

JavaScript strings are modelled as Lean `String`; `null`/absent strings as
`Option String`; the JS truthiness test `!s` on a string as `s = ""`;
`Math.floor(Math.random() * n)` as an injected natural draw taken `% n`.
-/

namespace QuestionCard

/-- Modelled from the spec: `QuestionType` is declared in `src/types.ts`,
which is not part of the provided sources.  The spec describes it as a closed
variant tag over MULTIPLE_CHOICE, FILL_IN_BLANK and REARRANGE; the extra
`OTHER` constructor stands for a runtime tag outside the three documented
variants (the "unknown question type" that the error-handling section of the
spec discusses), so that the fall-through behaviour of the component at such
a tag can be stated. -/
inductive QuestionType where
  | MULTIPLE_CHOICE
  | FILL_IN_BLANK
  | REARRANGE
  | OTHER
deriving DecidableEq, Repr

/-- Modelled from the spec: the `Question` record of `src/types.ts` (absent
from the provided sources).  `options` is present only for MULTIPLE_CHOICE and
`rearrangeParts` only for REARRANGE; an absent field is the empty list, which
matches the only uses the component makes of these fields
(`question.options?.filter(...) || []` and `question.rearrangeParts?.map(...)`). -/
structure Question where
  id : String
  type : QuestionType
  questionText : String
  explanation : String
  correctAnswer : String
  options : List String
  rearrangeParts : List String
deriving DecidableEq, Repr

/-- The ASCII characters matched by the JavaScript regexp class `\s`
(the model restricts attention to ASCII whitespace). -/
def jsWhitespace (c : Char) : Bool :=
  c = ' ' || c = '\t' || c = '\n' || c = '\r' || c = '\x0b' || c = '\x0c'

/-- Character-list worker for `collapseWs`: replaces every maximal run of
whitespace by a single space.  The boolean records whether the previous
character was whitespace. -/
def collapseWsGo : Bool → List Char → List Char
  | _, [] => []
  | inWs, c :: rest =>
    if jsWhitespace c then
      if inWs then collapseWsGo true rest
      else ' ' :: collapseWsGo true rest
    else c :: collapseWsGo false rest

/-- `s.replace(/\s+/g, ' ')`: every maximal run of whitespace becomes one
space. -/
def collapseWs (s : String) : String :=
  ⟨collapseWsGo false s.data⟩

/-- `s.trim()`: strip leading and trailing whitespace. -/
def jsTrim (s : String) : String :=
  ⟨((s.data.dropWhile fun c => jsWhitespace c).reverse.dropWhile
      fun c => jsWhitespace c).reverse⟩

/-- The normalization `isCorrect` applies to both sides of a REARRANGE
comparison: `str.replace(/\s+/g, ' ').trim()`. -/
def normalizeRearrange (s : String) : String :=
  jsTrim (collapseWs s)

/-- `s.toLowerCase()` (ASCII model): lower-case every character. -/
def jsToLower (s : String) : String :=
  ⟨s.data.map Char.toLower⟩

/-- `arr.join(' ')` and more generally `arr.join(sep)` on a string array. -/
def jsJoin (sep : String) : List String → String
  | [] => ""
  | [x] => x
  | x :: y :: xs => x ++ sep ++ jsJoin sep (y :: xs)

/-- Character-list worker for `jsSplitSpace`; `acc` holds the current token
reversed. -/
def splitSpaceGo : List Char → List Char → List String
  | acc, [] => [⟨acc.reverse⟩]
  | acc, c :: rest =>
    if c = ' ' then ⟨acc.reverse⟩ :: splitSpaceGo [] rest
    else splitSpaceGo (c :: acc) rest

/-- `s.split(' ')`: split on every single space character; adjacent
separators produce empty tokens and `"".split(' ')` is `[""]`. -/
def jsSplitSpace (s : String) : List String :=
  splitSpaceGo [] s.data

/-- `answer.charAt(0)` followed by `.toUpperCase()`: the first character as a
one-character string, upper-cased; the empty string when `answer` is empty. -/
def jsCharAt0Upper (s : String) : String :=
  match s.data with
  | [] => ""
  | c :: _ => String.singleton c.toUpper

/-- The `isCorrect` closure of `QuestionCard` (lines 94-100).  `userAnswer`
is `string | null`; the guard `if (!userAnswer) return false` rejects both
`null` and the empty string.  REARRANGE compares whitespace-normalized
strings case-sensitively; every other type tag (MULTIPLE_CHOICE,
FILL_IN_BLANK, and any unknown tag) falls through to the lower-cased
comparison. -/
def isCorrect (q : Question) (userAnswer : Option String) : Bool :=
  match userAnswer with
  | none => false
  | some ua =>
    if ua = "" then false
    else if q.type = QuestionType.REARRANGE then
      normalizeRearrange ua = normalizeRearrange q.correctAnswer
    else
      jsToLower ua = jsToLower q.correctAnswer

/-- The body of `generateHint` (lines 26-56) that computes the hint text,
with the random wrong-option pick made explicit: `draw` models the value of
`Math.floor(Math.random() * wrongOptions.length)` via `draw %
wrongOptions.length`. -/
def computeHintText (draw : Nat) (q : Question) : String :=
  match q.type with
  | QuestionType.MULTIPLE_CHOICE =>
    let wrongOptions := q.options.filter fun opt => opt ≠ q.correctAnswer
    if wrongOptions.length > 0 then
      let randomWrong := wrongOptions.getD (draw % wrongOptions.length) ""
      "Hãy loại bỏ phương án: \"" ++ randomWrong ++
        "\". Đó không phải là đáp án đúng."
    else ""
  | QuestionType.FILL_IN_BLANK =>
    let answer := jsTrim q.correctAnswer
    "Từ này có " ++ toString answer.length ++
      " chữ cái. Bắt đầu bằng chữ \"" ++ jsCharAt0Upper answer ++ "...\"."
  | QuestionType.REARRANGE =>
    let words := jsSplitSpace q.correctAnswer
    let revealCount := max 1 (min 2 (words.length / 2))
    let hintPhrase := jsJoin " " (words.take revealCount)
    "Câu bắt đầu bằng cụm từ: \"" ++ hintPhrase ++ "...\""
  | QuestionType.OTHER => ""

/-- `generateHint` as a transformer of the `hintText` state: the guard
`if (hintText) return` keeps a previously generated non-empty text, otherwise
the text is computed (with the given random draw) and stored. -/
def generateHint (draw : Nat) (q : Question) (hintText : String) : String :=
  if hintText ≠ "" then hintText else computeHintText draw q

/-- `handlePartClick` (lines 78-86) acting on the `selectedParts` state: a
no-op once answered; otherwise a part whose value is already selected is
removed by value (`filter(p => p !== part)`), and an unselected value is
appended. -/
def handlePartClick (isAnswered : Bool) (part : String)
    (selectedParts : List String) : List String :=
  if isAnswered then selectedParts
  else if selectedParts.contains part then
    selectedParts.filter fun p => p ≠ part
  else selectedParts ++ [part]

/-- The `selectedParts` state reached from the initial empty selection by a
sequence of clicks, each click carrying the `isAnswered` flag at its time and
the tapped part value. -/
def runClicks (clicks : List (Bool × String)) : List String :=
  clicks.foldl (fun sel c => handlePartClick c.1 c.2 sel) []

/-- `handleMCSelect` (lines 65-69): `some a` means `onAnswer(a)` was called,
`none` that it was not. -/
def handleMCSelect (isAnswered : Bool) (opt : String) : Option String :=
  if isAnswered then none else some opt

/-- `handleInputSubmit` (lines 71-76): submits the trimmed input when it is
truthy (non-empty). -/
def handleInputSubmit (isAnswered : Bool) (inputVal : String) :
    Option String :=
  if ¬isAnswered ∧ jsTrim inputVal ≠ "" then some (jsTrim inputVal) else none

/-- `handleRearrangeSubmit` (lines 88-92): submits the space-join of the
selection when it is non-empty. -/
def handleRearrangeSubmit (isAnswered : Bool) (selectedParts : List String) :
    Option String :=
  if ¬isAnswered ∧ selectedParts.length > 0 then
    some (jsJoin " " selectedParts)
  else none

/-! Concrete questions used by witnesses and counterexamples. -/

/-- A MULTIPLE_CHOICE question with `correctAnswer = "Paris"` and options
`["Paris", "London"]`. -/
def mcQ : Question :=
  { id := "mc1", type := QuestionType.MULTIPLE_CHOICE, questionText := "",
    explanation := "", correctAnswer := "Paris",
    options := ["Paris", "London"], rearrangeParts := [] }

/-- A question carrying a type tag outside the three documented variants. -/
def otherQ : Question :=
  { id := "u1", type := QuestionType.OTHER, questionText := "",
    explanation := "", correctAnswer := "Paris", options := [],
    rearrangeParts := [] }

/-- A REARRANGE question with `correctAnswer = "I love cats"`. -/
def rearQ : Question :=
  { id := "r1", type := QuestionType.REARRANGE, questionText := "",
    explanation := "", correctAnswer := "I love cats", options := [],
    rearrangeParts := ["I", "love", "cats"] }

/-- A FILL_IN_BLANK question with `correctAnswer = " cat "`. -/
def fibQ : Question :=
  { id := "f1", type := QuestionType.FILL_IN_BLANK, questionText := "",
    explanation := "", correctAnswer := " cat ", options := [],
    rearrangeParts := [] }

/-- The FILL_IN_BLANK hint sentence as a function of the revealed data only:
the length of the trimmed correct answer and its upper-cased first
character. -/
def fibHintTemplate (n : Nat) (fc : String) : String :=
  "Từ này có " ++ toString n ++ " chữ cái. Bắt đầu bằng chữ \"" ++ fc ++
    "...\"."

/-! Helper lemmas. -/

/-- `handlePartClick` preserves distinctness of the selected values. -/
theorem handlePartClick_nodup (a : Bool) (p : String) (sel : List String)
    (h : sel.Nodup) : (handlePartClick a p sel).Nodup := by
  unfold handlePartClick
  split
  · exact h
  split
  · exact List.Nodup.filter _ h
  · rename_i hco
    have hp : p ∉ sel := fun hm => hco (List.elem_iff.mpr hm)
    simp [List.nodup_append, h, hp]

/-- Folding any click sequence from a duplicate-free selection keeps it
duplicate-free. -/
theorem foldClicks_nodup (clicks : List (Bool × String)) :
    ∀ sel : List String, sel.Nodup →
      (clicks.foldl (fun s c => handlePartClick c.1 c.2 s) sel).Nodup := by
  induction clicks with
  | nil => intro sel h; exact h
  | cons c cs ih =>
    intro sel h
    exact ih _ (handlePartClick_nodup c.1 c.2 sel h)

/-- A string whose length is zero is the empty string. -/
theorem string_eq_empty_of_length (s : String) (h : s.length = 0) : s = "" := by
  apply String.ext
  exact List.length_eq_zero.mp h

/-- Appending anything to a non-empty string yields a non-empty string. -/
theorem append_ne_empty_left (a b : String) (ha : a ≠ "") : a ++ b ≠ "" := by
  intro h
  have hl := congrArg String.length h
  rw [String.length_append, show ("" : String).length = 0 from rfl] at hl
  exact ha (string_eq_empty_of_length a (by omega))

/-- String concatenation is associative. -/
theorem string_append_assoc (a b c : String) : a ++ b ++ c = a ++ (b ++ c) := by
  apply String.ext
  simp [String.data_append]

/-- `jsJoin` on a cons with a non-empty tail inserts one separator. -/
theorem jsJoin_cons_of_ne_nil (sep x : String) (xs : List String)
    (h : xs ≠ []) : jsJoin sep (x :: xs) = x ++ sep ++ jsJoin sep xs := by
  cases xs with
  | nil => exact absurd rfl h
  | cons y ys => rfl

/-- `splitSpaceGo` always returns at least one token. -/
theorem splitSpaceGo_ne_nil (cs : List Char) :
    ∀ acc : List Char, splitSpaceGo acc cs ≠ [] := by
  induction cs with
  | nil => intro acc; simp [splitSpaceGo]
  | cons c rest ih =>
    intro acc
    unfold splitSpaceGo
    split
    · simp
    · exact ih (c :: acc)

/-- Joining the tokens of `splitSpaceGo` with a single space restores the
input, with the pending accumulator prepended. -/
theorem jsJoin_splitSpaceGo (cs : List Char) :
    ∀ acc : List Char,
      jsJoin " " (splitSpaceGo acc cs) = ⟨acc.reverse ++ cs⟩ := by
  induction cs with
  | nil =>
    intro acc
    simp [splitSpaceGo, jsJoin]
  | cons c rest ih =>
    intro acc
    unfold splitSpaceGo
    split
    · rename_i hc
      rw [jsJoin_cons_of_ne_nil _ _ _ (splitSpaceGo_ne_nil rest []), ih []]
      subst hc
      apply String.ext
      have hsp : (" " : String).data = [' '] := rfl
      simp [String.data_append, hsp]
    · rw [ih (c :: acc)]
      apply String.ext
      simp

/-- Splitting on single spaces and joining with single spaces is the
identity. -/
theorem jsJoin_jsSplitSpace (s : String) : jsJoin " " (jsSplitSpace s) = s := by
  show jsJoin " " (splitSpaceGo [] s.data) = s
  rw [jsJoin_splitSpaceGo s.data []]
  cases s
  rfl

/-- `jsJoin` distributes over appending two non-empty token lists. -/
theorem jsJoin_append_of_ne_nil (a b : List String) (ha : a ≠ [])
    (hb : b ≠ []) :
    jsJoin " " (a ++ b) = jsJoin " " a ++ " " ++ jsJoin " " b := by
  induction a with
  | nil => exact absurd rfl ha
  | cons x xs ih =>
    cases xs with
    | nil =>
      rw [List.singleton_append, jsJoin_cons_of_ne_nil _ _ _ hb]
      rfl
    | cons y ys =>
      rw [List.cons_append,
        jsJoin_cons_of_ne_nil _ _ _ (by simp : (y :: ys) ++ b ≠ []),
        ih (by simp), jsJoin_cons_of_ne_nil _ _ _ (by simp : y :: ys ≠ [])]
      apply String.ext
      simp [String.data_append, List.append_assoc]

/-- Joining a strict initial segment of a token list is strictly shorter
than joining the whole list. -/
theorem jsJoin_length_lt_of_take (l : List String) (k : Nat) (hk1 : 1 ≤ k)
    (hkl : k < l.length) :
    (jsJoin " " (l.take k)).length < (jsJoin " " l).length := by
  have hta : l.take k ≠ [] := by
    apply List.length_pos.mp
    rw [List.length_take]
    omega
  have hdr : l.drop k ≠ [] := by
    apply List.length_pos.mp
    rw [List.length_drop]
    omega
  have hsplit := jsJoin_append_of_ne_nil (l.take k) (l.drop k) hta hdr
  rw [List.take_append_drop] at hsplit
  rw [hsplit, String.length_append, String.length_append]
  have hsp : (" " : String).length = 1 := rfl
  omega

/-- Each member of a token list is at most as long as the space-join of the
list. -/
theorem length_le_jsJoin_of_mem (p : String) (l : List String) (hp : p ∈ l) :
    p.length ≤ (jsJoin " " l).length := by
  induction l with
  | nil => cases hp
  | cons x xs ih =>
    cases xs with
    | nil =>
      have h := List.mem_singleton.mp hp
      subst h
      exact Nat.le_refl _
    | cons y ys =>
      rw [jsJoin_cons_of_ne_nil _ _ _ (by simp : y :: ys ≠ []),
        String.length_append, String.length_append]
      rcases List.mem_cons.mp hp with h | h
      · subst h
        omega
      · have := ih h
        omega

/-! Claim theorems. -/

/-- C1 (code bug exhibit): with the value-keyed selection of
`handlePartClick`, tapping a duplicated fragment value twice — as the two
copies of "the" in a pool would require — leaves the selection empty instead
of holding the two copies: the second tap is treated as a deselection of the
first, so duplicate-valued fragments are not independently selectable. -/
theorem C1_duplicate_fragment_taps_cancel :
    runClicks [(false, "the"), (false, "the")] = [] ∧
    (runClicks [(false, "the"), (false, "the")]).count "the" = 0 := by
  decide

/-- C7: evaluation of an absent (`null`) or empty submitted answer is `false`
for every question, via the guard `if (!userAnswer) return false`; the
evaluator is a total function, so no exception is possible. -/
theorem C7_empty_or_absent_answer_false (q : Question) :
    isCorrect q none = false ∧ isCorrect q (some "") = false := by
  refine ⟨rfl, ?_⟩
  simp [isCorrect]

/-- C9: in every state of the fragment selection reachable by click
sequences from the empty selection, the selected values are pairwise
distinct; hence any given string value occurs at most once in the selection
(and so at most once in the submitted space-join). -/
theorem C9_selection_values_distinct (clicks : List (Bool × String)) :
    (runClicks clicks).Nodup ∧
    ∀ v : String, (runClicks clicks).count v ≤ 1 := by
  have h : (runClicks clicks).Nodup :=
    foldClicks_nodup clicks [] List.nodup_nil
  exact ⟨h, fun v => List.nodup_iff_count_le_one.mp h v⟩

/-- C2 (counterexample): `isCorrect` never consults `options`; the
submission "PARIS" is not an element of the options of `mcQ`, yet it
evaluates `true` because it equals the correct answer after lower-casing,
contradicting the claim that out-of-options submissions evaluate `false`. -/
theorem C2_out_of_options_counterexample :
    isCorrect mcQ (some "PARIS") = true ∧ "PARIS" ∉ mcQ.options := by
  decide

/-- C2 (amended): for a MULTIPLE_CHOICE question, evaluation of `some s`
returns `true` exactly when `s` is non-empty and equals `correctAnswer`
after lower-casing both; membership of `s` in `options` is not checked. -/
theorem C2_mc_eval_is_lowercase_equality (q : Question) (s : String)
    (hq : q.type = QuestionType.MULTIPLE_CHOICE) :
    isCorrect q (some s) = true ↔
      s ≠ "" ∧ jsToLower s = jsToLower q.correctAnswer := by
  rcases eq_or_ne s "" with h | h
  · subst h
    simp [isCorrect]
  · simp [isCorrect, h, hq]

/-- Witness for C2: the amended theorem applied to `mcQ` and "PARIS". -/
theorem C2_mc_eval_is_lowercase_equality_witness :
    isCorrect mcQ (some "PARIS") = true :=
  (C2_mc_eval_is_lowercase_equality mcQ "PARIS" rfl).mpr (by decide)

/-- C3 (counterexample): a question whose type tag is outside the three
documented variants is not evaluated as always-incorrect: the comparison
falls through to the lower-cased equality, so submitting the correct answer
to `otherQ` evaluates `true`. -/
theorem C3_unknown_type_counterexample :
    isCorrect otherQ (some "Paris") = true := by
  decide

/-- C3 (amended): for a question whose type is none of the three variants,
evaluation does not crash and falls through to the default lower-cased
comparison: absent answers evaluate `false`, and `some s` evaluates `true`
exactly when `s` is non-empty and case-insensitively equals
`correctAnswer`. -/
theorem C3_unknown_type_falls_through (q : Question) (s : String)
    (hq : q.type = QuestionType.OTHER) :
    isCorrect q none = false ∧
    (isCorrect q (some s) = true ↔
      s ≠ "" ∧ jsToLower s = jsToLower q.correctAnswer) := by
  refine ⟨rfl, ?_⟩
  rcases eq_or_ne s "" with h | h
  · subst h
    simp [isCorrect]
  · simp [isCorrect, h, hq]

/-- Witness for C3: the amended theorem applied to `otherQ` and "PARIS". -/
theorem C3_unknown_type_falls_through_witness :
    isCorrect otherQ (some "PARIS") = true :=
  ((C3_unknown_type_falls_through otherQ "PARIS" rfl).2).mpr (by decide)

/-- C4: for a REARRANGE question whose normalized correct answer is
non-empty (the data model makes it a canonical sentence), evaluation of a
submitted answer returns `true` exactly when the two strings are equal after
collapsing every whitespace run to one space and trimming both; no
lower-casing is applied, so the comparison is case-sensitive. -/
theorem C4_rearrange_eval_normalized (q : Question) (s : String)
    (hq : q.type = QuestionType.REARRANGE)
    (hc : normalizeRearrange q.correctAnswer ≠ "") :
    isCorrect q (some s) = true ↔
      normalizeRearrange s = normalizeRearrange q.correctAnswer := by
  rcases eq_or_ne s "" with h | h
  · subst h
    have hl : isCorrect q (some "") = false := by simp [isCorrect]
    rw [hl, show normalizeRearrange "" = "" from rfl]
    simp only [Bool.false_eq_true, false_iff]
    intro hx
    exact hc hx.symm
  · simp [isCorrect, h, hq]

/-- Witness for C4: the theorem applied to `rearQ` and a submission with
cosmetic extra whitespace. -/
theorem C4_rearrange_eval_normalized_witness :
    isCorrect rearQ (some "I  love cats ") = true :=
  (C4_rearrange_eval_normalized rearQ "I  love cats " rfl (by decide)).mpr
    (by decide)

/-- C5: the REARRANGE hint is the template around the space-join of the
first `max 1 (min 2 (tokenCount / 2))` tokens of the correct answer split on
single spaces; when the answer has at least 3 tokens, at most 2 tokens are
revealed and the revealed phrase differs from the full correct answer. -/
theorem C5_rearrange_hint_reveals_capped_tokens (q : Question) (d : Nat)
    (hq : q.type = QuestionType.REARRANGE) :
    computeHintText d q =
      "Câu bắt đầu bằng cụm từ: \"" ++
        jsJoin " " ((jsSplitSpace q.correctAnswer).take
          (max 1 (min 2 ((jsSplitSpace q.correctAnswer).length / 2)))) ++
        "...\"" ∧
    (3 ≤ (jsSplitSpace q.correctAnswer).length →
      max 1 (min 2 ((jsSplitSpace q.correctAnswer).length / 2)) ≤ 2 ∧
      jsJoin " " ((jsSplitSpace q.correctAnswer).take
          (max 1 (min 2 ((jsSplitSpace q.correctAnswer).length / 2)))) ≠
        q.correctAnswer) := by
  constructor
  · simp [computeHintText, hq]
  · intro h3
    have hk2 : max 1 (min 2 ((jsSplitSpace q.correctAnswer).length / 2)) ≤ 2 :=
      max_le (by omega) (min_le_left _ _)
    refine ⟨hk2, ?_⟩
    intro he
    have hlt := jsJoin_length_lt_of_take (jsSplitSpace q.correctAnswer)
      (max 1 (min 2 ((jsSplitSpace q.correctAnswer).length / 2)))
      (le_max_left _ _) (by omega)
    rw [jsJoin_jsSplitSpace, he] at hlt
    omega

/-- Witness for C5: `rearQ` has 3 tokens and its hint phrase is not the full
answer. -/
theorem C5_rearrange_hint_reveals_capped_tokens_witness :
    3 ≤ (jsSplitSpace rearQ.correctAnswer).length ∧
    jsJoin " " ((jsSplitSpace rearQ.correctAnswer).take
        (max 1 (min 2 ((jsSplitSpace rearQ.correctAnswer).length / 2)))) ≠
      rearQ.correctAnswer := by
  refine ⟨by decide, ?_⟩
  exact ((C5_rearrange_hint_reveals_capped_tokens rearQ 0 rfl).2 (by decide)).2

/-- C6: the FILL_IN_BLANK hint is exactly the template sentence built from
the character length of the trimmed correct answer and its upper-cased first
character; consequently any two FILL_IN_BLANK questions agreeing on those
two data receive identical hints, so nothing more of the answer is
revealed. -/
theorem C6_fib_hint_reveals_length_and_first (q : Question) (d : Nat)
    (hq : q.type = QuestionType.FILL_IN_BLANK) :
    computeHintText d q =
      fibHintTemplate (jsTrim q.correctAnswer).length
        (jsCharAt0Upper (jsTrim q.correctAnswer)) ∧
    (∀ (r : Question) (e : Nat), r.type = QuestionType.FILL_IN_BLANK →
      (jsTrim r.correctAnswer).length = (jsTrim q.correctAnswer).length →
      jsCharAt0Upper (jsTrim r.correctAnswer) =
        jsCharAt0Upper (jsTrim q.correctAnswer) →
      computeHintText e r = computeHintText d q) := by
  have key : ∀ (r : Question) (e : Nat),
      r.type = QuestionType.FILL_IN_BLANK →
      computeHintText e r =
        fibHintTemplate (jsTrim r.correctAnswer).length
          (jsCharAt0Upper (jsTrim r.correctAnswer)) := by
    intro r e hr
    simp [computeHintText, fibHintTemplate, hr]
  refine ⟨key q d hq, ?_⟩
  intro r e hr hlen hfc
  rw [key r e hr, key q d hq, hlen, hfc]

/-- Witness for C6: the theorem applied to `fibQ` (whose trimmed answer is
"cat", of length 3 and first letter C). -/
theorem C6_fib_hint_reveals_length_and_first_witness :
    computeHintText 0 fibQ = fibHintTemplate 3 "C" := by
  have h := (C6_fib_hint_reveals_length_and_first fibQ 0 rfl).1
  rw [h]
  decide

/-- The hint text computed for a question is empty for one random draw
exactly when it is empty for every draw: the only empty outcomes — an
unknown type tag, or a MULTIPLE_CHOICE question with no wrong option — do
not depend on the draw. -/
theorem computeHintText_empty_stable (d e : Nat) (q : Question)
    (h : computeHintText d q = "") : computeHintText e q = "" := by
  have hMCne : ∀ s : String,
      "Hãy loại bỏ phương án: \"" ++ s ++
        "\". Đó không phải là đáp án đúng." ≠ "" :=
    fun s => append_ne_empty_left _ _ (append_ne_empty_left _ _ (by decide))
  have hFIBne : ∀ a b : String,
      "Từ này có " ++ a ++ " chữ cái. Bắt đầu bằng chữ \"" ++ b ++
        "...\"." ≠ "" :=
    fun a b => append_ne_empty_left _ _ (append_ne_empty_left _ _
      (append_ne_empty_left _ _ (append_ne_empty_left _ _ (by decide))))
  have hREAne : ∀ s : String,
      "Câu bắt đầu bằng cụm từ: \"" ++ s ++ "...\"" ≠ "" :=
    fun s => append_ne_empty_left _ _ (append_ne_empty_left _ _ (by decide))
  cases hty : q.type with
  | MULTIPLE_CHOICE =>
    simp only [computeHintText, hty] at h ⊢
    split at h
    · exact absurd h (hMCne _)
    · rename_i hcond
      rw [if_neg hcond]
  | FILL_IN_BLANK =>
    simp only [computeHintText, hty] at h
    exact absurd h (hFIBne _ _)
  | REARRANGE =>
    simp only [computeHintText, hty] at h
    exact absurd h (hREAne _)
  | OTHER =>
    simp only [computeHintText, hty]

/-- C8: invoking hint generation a second time on the same question, even
with a different random draw, leaves the stored hint text exactly as the
first invocation produced it; and whenever a non-empty text is already
stored, generation returns it unchanged (the cached text is reused, the
random wrong-option draw is not redrawn). -/
theorem C8_hint_memoized (q : Question) (d1 d2 : Nat) (s : String) :
    generateHint d2 q (generateHint d1 q "") = generateHint d1 q "" ∧
    (s ≠ "" → generateHint d2 q s = s) := by
  constructor
  · have h1 : generateHint d1 q "" = computeHintText d1 q := by
      simp [generateHint]
    rw [h1]
    rcases eq_or_ne (computeHintText d1 q) "" with h | h
    · rw [h]
      have h2 : computeHintText d2 q = "" :=
        computeHintText_empty_stable d1 d2 q h
      simp [generateHint, h2]
    · simp [generateHint, h]
  · intro hs
    simp [generateHint, hs]

/-- Witness for C8: two invocations on `mcQ` with distinct draws agree, and
a stored non-empty text is returned unchanged. -/
theorem C8_hint_memoized_witness :
    generateHint 1 mcQ (generateHint 0 mcQ "") = generateHint 0 mcQ "" ∧
    generateHint 1 mcQ "cached" = "cached" :=
  ⟨(C8_hint_memoized mcQ 0 1 "cached").1,
   (C8_hint_memoized mcQ 0 1 "cached").2 (by decide)⟩

/-- C10 (counterexample): the submission paths do not guarantee a non-empty
answer string: tapping an empty-string option calls `onAnswer("")`, and a
selection consisting of one empty-string fragment submits `""` as well. -/
theorem C10_empty_strings_submitted :
    handleMCSelect false "" = some "" ∧
    handleRearrangeSubmit false [""] = some "" := by
  decide

/-- C10 (amended): FILL_IN_BLANK submissions are always non-empty (the
trimmed input is submitted only when non-empty); a MULTIPLE_CHOICE
submission is non-empty whenever the tapped option is; a REARRANGE
submission is non-empty whenever some selected fragment is (the guard only
ensures at least one fragment is selected). -/
theorem C10_submitted_answer_nonempty :
    (∀ (b : Bool) (v s : String), handleInputSubmit b v = some s → s ≠ "") ∧
    (∀ (b : Bool) (o s : String), o ≠ "" →
      handleMCSelect b o = some s → s ≠ "") ∧
    (∀ (b : Bool) (sel : List String) (s : String),
      (∃ p ∈ sel, p ≠ "") → handleRearrangeSubmit b sel = some s →
      s ≠ "") := by
  refine ⟨?_, ?_, ?_⟩
  · intro b v s h
    unfold handleInputSubmit at h
    split at h
    · rename_i hc
      injection h with h'
      subst h'
      exact hc.2
    · simp at h
  · intro b o s ho h
    unfold handleMCSelect at h
    split at h
    · simp at h
    · injection h with h'
      subst h'
      exact ho
  · intro b sel s hex h
    unfold handleRearrangeSubmit at h
    split at h
    · injection h with h'
      obtain ⟨p, hmem, hp⟩ := hex
      have hle := length_le_jsJoin_of_mem p sel hmem
      intro hs
      rw [← h'] at hs
      have h0 : (jsJoin " " sel).length = 0 := by
        rw [hs]
        rfl
      exact hp (string_eq_empty_of_length p (by omega))
    · simp at h

/-- Witness for C10: the amended theorem applied to a concrete trimmed
FILL_IN_BLANK submission. -/
theorem C10_submitted_answer_nonempty_witness :
    handleInputSubmit false "  hi  " = some "hi" ∧ ("hi" : String) ≠ "" := by
  refine ⟨by decide, ?_⟩
  exact C10_submitted_answer_nonempty.1 false "  hi  " "hi" (by decide)

end QuestionCard
